import Mathlib

/-!
Shallow embedding of the patient-service HTTP handlers in
`sample-api-hc/patient-service/main.go`, together with proofs of the
specification's testable properties.  The in-memory Go map guarded by the
store's reader/writer lock is modelled as an association list with unique
keys; each handler becomes a pure function from the store (and the parsed
request data) to an HTTP response and the store after the call.
-/

/-- Patient record, mirroring the Go struct `PatientInfo` (main.go 14-20):
five string fields `name`, `dateOfBirth`, `gender`, `illness`, `email`. -/
structure PatientInfo where
  name : String
  dateOfBirth : String
  gender : String
  illness : String
  email : String
  deriving DecidableEq, Repr

/-- `strings.ToLower` as the handlers use it: lowercase every character of
the string (executable model of Go's lowercasing; it agrees with it on
ASCII names). -/
def goToLower (s : String) : String := String.mk (s.data.map Char.toLower)

/-- The in-memory store `store.patients`: a map from normalized (lowercased)
name to record, modelled as an association list. -/
abbrev Store := List (String × PatientInfo)

/-- Go map lookup `store.patients[key]`. -/
def storeLookup : Store → String → Option PatientInfo
  | [], _ => none
  | (k, v) :: rest, key => if k = key then some v else storeLookup rest key

/-- Go map assignment `store.patients[key] = v`: overwrite the entry with this
key if present, otherwise add a new entry. -/
def storePut : Store → String → PatientInfo → Store
  | [], key, v => [(key, v)]
  | (k, w) :: rest, key, v =>
      if k = key then (key, v) :: rest else (k, w) :: storePut rest key v

/-- The records currently in the store, as iterated by `listAllPatients`
(iteration order of a Go map is unspecified; the model fixes insertion
order). -/
def storeValues (s : Store) : List PatientInfo := s.map Prod.snd

/-- The keys currently in the store. -/
def storeKeys (s : Store) : List String := s.map Prod.fst

/-- A response body: plain text (as written by `http.Error`), a JSON record,
a JSON array of records, or a JSON object of string fields. -/
inductive Body
  | text : String → Body
  | json : PatientInfo → Body
  | jsonList : List PatientInfo → Body
  | jsonObj : List (String × String) → Body
  deriving DecidableEq, Repr

/-- An HTTP response: status code and body. -/
structure HttpResponse where
  status : Nat
  body : Body
  deriving DecidableEq, Repr

/-- Handler `getPatientByName` (main.go 71-86): lowercase the `name` path
parameter, look it up; on a miss answer 404 with plain-text body
"Patient not found", on a hit answer 200 with the record. -/
def getPatientByName (s : Store) (name : String) : HttpResponse :=
  match storeLookup s (goToLower name) with
  | none => ⟨404, Body.text "Patient not found"⟩
  | some p => ⟨200, Body.json p⟩

/-- Handler `createPatient` (main.go 88-108).  `body = none` models a request
body that fails to decode into `PatientInfo` (400, store untouched); an empty
`name`, `dateOfBirth` or `email` is rejected with 400 before any mutation;
otherwise the record is stored under the lowercase of its name and answered
back with 201.  Returns the response and the store after the call. -/
def createPatient (s : Store) (body : Option PatientInfo) : HttpResponse × Store :=
  match body with
  | none => (⟨400, Body.text "Invalid request body"⟩, s)
  | some p =>
      if p.name = "" ∨ p.dateOfBirth = "" ∨ p.email = "" then
        (⟨400, Body.text "Name, date of birth, and email are required"⟩, s)
      else
        (⟨201, Body.json p⟩, storePut s (goToLower p.name) p)

/-- Handler `listAllPatients` (main.go 110-120): a snapshot copy of all
records, answered with 200. -/
def listAllPatients (s : Store) : HttpResponse :=
  ⟨200, Body.jsonList (storeValues s)⟩

/-- A wall-clock instant as `time.Now()` yields it: calendar fields plus the
zone offset from UTC in minutes. -/
structure GoTime where
  year : Nat
  month : Nat
  day : Nat
  hour : Nat
  minute : Nat
  second : Nat
  offsetMinutes : Int
  deriving DecidableEq, Repr

/-- The decimal digit character for `n` (`n` taken mod 10). -/
def digitChar (n : Nat) : Char := Char.ofNat (48 + n % 10)

/-- Numeric value of a digit character. -/
def digitVal (c : Char) : Nat := c.toNat - 48

/-- The zone-offset suffix of Go's RFC3339 layout `Z07:00`: `Z` for UTC,
otherwise a sign and `HH:MM`. -/
def offsetChars (off : Int) : List Char :=
  if off = 0 then ['Z']
  else
    (if off < 0 then '-' else '+') ::
      [digitChar (off.natAbs / 60 / 10), digitChar (off.natAbs / 60),
       ':', digitChar (off.natAbs % 60 / 10), digitChar (off.natAbs % 60)]

/-- `t.Format(time.RFC3339)` (main.go 126): `YYYY-MM-DDTHH:MM:SS` followed by
the zone-offset suffix. -/
def rfc3339Chars (t : GoTime) : List Char :=
  [digitChar (t.year / 1000), digitChar (t.year / 100),
   digitChar (t.year / 10), digitChar t.year, '-',
   digitChar (t.month / 10), digitChar t.month, '-',
   digitChar (t.day / 10), digitChar t.day, 'T',
   digitChar (t.hour / 10), digitChar t.hour, ':',
   digitChar (t.minute / 10), digitChar t.minute, ':',
   digitChar (t.second / 10), digitChar t.second] ++ offsetChars t.offsetMinutes

/-- `t.Format(time.RFC3339)` as a string. -/
def formatRFC3339 (t : GoTime) : String := String.mk (rfc3339Chars t)

/-- Handler `healthCheck` (main.go 122-128): always 200 with a JSON object
`{"status": "healthy", "time": <now formatted as RFC3339>}`; it does not read
the store. -/
def healthCheck (t : GoTime) : HttpResponse :=
  ⟨200, Body.jsonObj [("status", "healthy"), ("time", formatRFC3339 t)]⟩

/-- Validity of the zone-offset suffix of an RFC 3339 `date-time`:
`Z`, or a sign followed by `HH:MM` with hours at most 23 and minutes at
most 59. -/
def offsetOk : List Char → Bool
  | [z] => z = 'Z'
  | [sg, a, b, c, d, e] =>
      (sg = '+' || sg = '-') && a.isDigit && b.isDigit && c = ':' &&
        d.isDigit && e.isDigit &&
        (digitVal a * 10 + digitVal b ≤ 23) && (digitVal d * 10 + digitVal e ≤ 59)
  | _ => false

/-- Syntactic validity of an RFC 3339 `date-time` over its characters:
`full-date "T" partial-time time-offset` with the numeric fields in range
(month 01-12, day 01-31, hour 00-23, minute 00-59, second 00-60). -/
def rfc3339ValidChars : List Char → Bool
  | y1 :: y2 :: y3 :: y4 :: c1 :: m1 :: m2 :: c2 :: d1 :: d2 :: ct ::
      h1 :: h2 :: c3 :: n1 :: n2 :: c4 :: s1 :: s2 :: rest =>
      y1.isDigit && y2.isDigit && y3.isDigit && y4.isDigit && c1 = '-' &&
      m1.isDigit && m2.isDigit && c2 = '-' && d1.isDigit && d2.isDigit &&
      ct = 'T' && h1.isDigit && h2.isDigit && c3 = ':' &&
      n1.isDigit && n2.isDigit && c4 = ':' && s1.isDigit && s2.isDigit &&
      (1 ≤ digitVal m1 * 10 + digitVal m2) && (digitVal m1 * 10 + digitVal m2 ≤ 12) &&
      (1 ≤ digitVal d1 * 10 + digitVal d2) && (digitVal d1 * 10 + digitVal d2 ≤ 31) &&
      (digitVal h1 * 10 + digitVal h2 ≤ 23) && (digitVal n1 * 10 + digitVal n2 ≤ 59) &&
      (digitVal s1 * 10 + digitVal s2 ≤ 60) && offsetOk rest
  | _ => false

/-- Syntactic validity of an RFC 3339 `date-time` string. -/
def rfc3339Valid (s : String) : Bool := rfc3339ValidChars s.data

/-- An inbound API request as dispatched by the router (main.go 146-152):
list, get-by-name, create (with its parsed body), or health (with the
current time). -/
inductive Request
  | listReq : Request
  | getReq : String → Request
  | createReq : Option PatientInfo → Request
  | healthReq : GoTime → Request

/-- One request/response transaction of the service: the handler's response
together with the store after the call.  Only `createPatient` writes to
the store. -/
def handleRequest (s : Store) : Request → HttpResponse × Store
  | Request.listReq => (listAllPatients s, s)
  | Request.getReq n => (getPatientByName s n, s)
  | Request.createReq b => createPatient s b
  | Request.healthReq t => (healthCheck t, s)

/-- The four sample records inserted by `init` (main.go 34-64). -/
def samplePatients : List PatientInfo :=
  [⟨"Nobody Knows", "1985-03-15", "Male", "Hypertension", "nobody.knows@email.com"⟩,
   ⟨"Johnson Fake", "1990-07-22", "Female", "Type 2 Diabetes", "johnson.fake@email.com"⟩,
   ⟨"Michael Chen", "1978-11-08", "Male", "Asthma", "michael.chen@email.com"⟩,
   ⟨"Emily Lor", "1995-02-14", "Female", "Migraine", "emily.lor@email.com"⟩]

/-- The store right after `init` (main.go 29-69): the sample records keyed by
the lowercase of their names. -/
def initialStore : Store :=
  samplePatients.foldl (fun s p => storePut s (goToLower p.name) p) []

/-- Store invariant (spec §3): every key is the lowercase form of the name
field of the record stored under it. -/
def StoreInv (s : Store) : Prop := ∀ kv ∈ s, kv.1 = goToLower kv.2.name

instance (s : Store) : Decidable (StoreInv s) :=
  List.decidableBAll (fun kv : String × PatientInfo => kv.1 = goToLower kv.2.name) s

theorem storeLookup_put_self (s : Store) (k : String) (v : PatientInfo) :
    storeLookup (storePut s k v) k = some v := by
  induction s with
  | nil => simp [storePut, storeLookup]
  | cons kv rest ih =>
      obtain ⟨a, b⟩ := kv
      by_cases h : a = k <;> simp [storePut, storeLookup, h, ih]

theorem storePut_length_of_mem (s : Store) (k : String) (v w : PatientInfo)
    (h : (k, w) ∈ s) : (storePut s k v).length = s.length := by
  induction s with
  | nil => cases h
  | cons kv rest ih =>
      obtain ⟨a, b⟩ := kv
      by_cases hk : a = k
      · simp [storePut, hk]
      · rcases List.mem_cons.mp h with heq | hmem
        · cases heq; exact absurd rfl hk
        · simp [storePut, hk, ih hmem]

theorem storePut_inv (s : Store) (v : PatientInfo) (h : StoreInv s) :
    StoreInv (storePut s (goToLower v.name) v) := by
  induction s with
  | nil =>
      intro kv hkv
      simp [storePut] at hkv
      simp [hkv]
  | cons kv rest ih =>
      obtain ⟨a, b⟩ := kv
      have ha : a = goToLower b.name := h (a, b) (List.mem_cons_self _ _)
      have hrest : StoreInv rest := fun x hx => h x (List.mem_cons_of_mem _ hx)
      by_cases hk : a = goToLower v.name
      · intro x hx
        simp [storePut, hk] at hx
        rcases hx with rfl | hx
        · rfl
        · exact hrest x hx
      · intro x hx
        simp [storePut, hk] at hx
        rcases hx with rfl | hx
        · exact ha
        · exact ih hrest x hx

theorem storeLookup_eq_none_of_not_mem (s : Store) (k : String)
    (h : k ∉ storeKeys s) : storeLookup s k = none := by
  induction s with
  | nil => rfl
  | cons kv rest ih =>
      obtain ⟨a, b⟩ := kv
      have hh : k ∉ a :: storeKeys rest := h
      have hne : ¬a = k := fun e => hh (e ▸ List.mem_cons_self a (storeKeys rest))
      have hrest : k ∉ storeKeys rest := fun hm => hh (List.mem_cons_of_mem _ hm)
      simp [storeLookup, hne, ih hrest]

/-- C1: for every create request whose parsed record has non-empty name,
dateOfBirth and email, a subsequent get-by-name with the same name in any
casing answers 201 then 200 with the submitted record unchanged (all five
fields, the original casing of the name included); only the lookup key is
lowercased. -/
theorem create_then_get_roundtrip (s : Store) (p : PatientInfo) (q : String)
    (hn : p.name ≠ "") (hd : p.dateOfBirth ≠ "") (he : p.email ≠ "")
    (hq : goToLower q = goToLower p.name) :
    (createPatient s (some p)).1.status = 201 ∧
    getPatientByName (createPatient s (some p)).2 q = ⟨200, Body.json p⟩ := by
  refine ⟨by simp [createPatient, hn, hd, he], ?_⟩
  simp [createPatient, hn, hd, he, getPatientByName, hq, storeLookup_put_self]

/-- C1 witness at a concrete record, queried back in a different casing. -/
theorem create_then_get_roundtrip_witness :
    (createPatient []
      (some ⟨"Ada Lovelace", "1815-12-10", "Female", "None", "ada@example.com"⟩)).1.status = 201 ∧
    getPatientByName
      (createPatient []
        (some ⟨"Ada Lovelace", "1815-12-10", "Female", "None", "ada@example.com"⟩)).2
      "ADA lovelace" =
      ⟨200, Body.json ⟨"Ada Lovelace", "1815-12-10", "Female", "None", "ada@example.com"⟩⟩ :=
  create_then_get_roundtrip [] _ "ADA lovelace"
    (by decide) (by decide) (by decide) (by decide)

/-- C2: a valid create whose record name is case-insensitively equal to the
name of a record already in a store satisfying the key invariant overwrites
that record (the value under the normalized key becomes the new record) and
the number of records returned by list does not increase. -/
theorem create_overwrite_on_collision (s : Store) (p q : PatientInfo) (k : String)
    (hinv : StoreInv s) (hmem : (k, q) ∈ s)
    (hname : goToLower q.name = goToLower p.name)
    (hn : p.name ≠ "") (hd : p.dateOfBirth ≠ "") (he : p.email ≠ "") :
    (createPatient s (some p)).2 = storePut s (goToLower p.name) p ∧
    storeLookup (createPatient s (some p)).2 (goToLower p.name) = some p ∧
    (storeValues (createPatient s (some p)).2).length ≤ (storeValues s).length := by
  have hk : k = goToLower p.name := (hinv (k, q) hmem).trans hname
  subst hk
  have hcp : (createPatient s (some p)).2 = storePut s (goToLower p.name) p := by
    simp [createPatient, hn, hd, he]
  refine ⟨hcp, ?_, ?_⟩
  · rw [hcp]; exact storeLookup_put_self s _ p
  · rw [hcp]
    simp only [storeValues, List.length_map]
    exact le_of_eq (storePut_length_of_mem s _ p q hmem)

/-- C2 witness: overwriting the seeded "Michael Chen" record with a record
named "MICHAEL CHEN". -/
theorem create_overwrite_on_collision_witness :
    (createPatient initialStore
      (some ⟨"MICHAEL CHEN", "2001-01-01", "Male", "Flu", "mc@example.com"⟩)).2 =
      storePut initialStore "michael chen"
        ⟨"MICHAEL CHEN", "2001-01-01", "Male", "Flu", "mc@example.com"⟩ ∧
    storeLookup
      (createPatient initialStore
        (some ⟨"MICHAEL CHEN", "2001-01-01", "Male", "Flu", "mc@example.com"⟩)).2
      "michael chen" =
      some ⟨"MICHAEL CHEN", "2001-01-01", "Male", "Flu", "mc@example.com"⟩ ∧
    (storeValues
      (createPatient initialStore
        (some ⟨"MICHAEL CHEN", "2001-01-01", "Male", "Flu", "mc@example.com"⟩)).2).length ≤
      (storeValues initialStore).length :=
  create_overwrite_on_collision initialStore
    ⟨"MICHAEL CHEN", "2001-01-01", "Male", "Flu", "mc@example.com"⟩
    ⟨"Michael Chen", "1978-11-08", "Male", "Asthma", "michael.chen@email.com"⟩
    "michael chen" (by decide) (by decide) (by decide)
    (by decide) (by decide) (by decide)

/-- C3: the key-is-lowercased-name invariant holds for the seeded initial
store and is preserved by every request: get, create (put), list and
health. -/
theorem storeInv_reachable :
    StoreInv initialStore ∧
    ∀ (s : Store) (req : Request), StoreInv s → StoreInv (handleRequest s req).2 := by
  refine ⟨by decide, ?_⟩
  intro s req h
  cases req with
  | listReq => exact h
  | getReq n => exact h
  | healthReq t => exact h
  | createReq b =>
      cases b with
      | none => exact h
      | some p =>
          by_cases hv : p.name = "" ∨ p.dateOfBirth = "" ∨ p.email = ""
          · simpa [handleRequest, createPatient, hv] using h
          · simpa [handleRequest, createPatient, hv] using storePut_inv s p h

/-- C3 witness: the invariant after a concrete create on the seeded store. -/
theorem storeInv_reachable_witness :
    StoreInv (handleRequest initialStore
      (Request.createReq (some ⟨"Zed Zed", "2000-01-01", "", "", "z@example.com"⟩))).2 :=
  storeInv_reachable.2 initialStore
    (Request.createReq (some ⟨"Zed Zed", "2000-01-01", "", "", "z@example.com"⟩))
    (by decide)

/-- C4: create answers 400 and leaves the store completely unchanged when the
body fails to parse or the parsed record's name, dateOfBirth or email is
empty; otherwise it answers 201 with the stored record and puts it under the
lowercased name. -/
theorem createPatient_spec (s : Store) (body : Option PatientInfo) :
    ((body = none ∨
        ∃ p, body = some p ∧ (p.name = "" ∨ p.dateOfBirth = "" ∨ p.email = "")) →
      (createPatient s body).1.status = 400 ∧ (createPatient s body).2 = s) ∧
    (∀ p, body = some p → p.name ≠ "" → p.dateOfBirth ≠ "" → p.email ≠ "" →
      createPatient s body = (⟨201, Body.json p⟩, storePut s (goToLower p.name) p)) := by
  constructor
  · rintro (rfl | ⟨p, rfl, hbad⟩)
    · exact ⟨rfl, rfl⟩
    · simp [createPatient, hbad]
  · rintro p rfl hn hd he
    simp [createPatient, hn, hd, he]

/-- C4 witness: an unparseable body on the seeded store. -/
theorem createPatient_spec_witness :
    (createPatient initialStore none).1.status = 400 ∧
    (createPatient initialStore none).2 = initialStore :=
  (createPatient_spec initialStore none).1 (Or.inl rfl)

/-- C5: get-by-name answers 404 with plain-text body "Patient not found" when
the lowercase form of the name is not a key of the store, and 200 with the
stored record when it is. -/
theorem getPatientByName_spec (s : Store) (name : String) :
    (goToLower name ∉ storeKeys s →
      getPatientByName s name = ⟨404, Body.text "Patient not found"⟩) ∧
    (∀ p, storeLookup s (goToLower name) = some p →
      getPatientByName s name = ⟨200, Body.json p⟩) := by
  constructor
  · intro h
    simp [getPatientByName, storeLookup_eq_none_of_not_mem s (goToLower name) h]
  · intro p h
    simp [getPatientByName, h]

/-- C5 witness: a miss on the seeded store. -/
theorem getPatientByName_spec_witness :
    getPatientByName initialStore "nonexistent" = ⟨404, Body.text "Patient not found"⟩ :=
  (getPatientByName_spec initialStore "nonexistent").1 (by decide)

/-- C6: immediately after startup and before any create, list answers 200
with exactly the four seeded sample records and no others, in unspecified
order. -/
theorem list_initial_seeded :
    ∃ l, listAllPatients initialStore = ⟨200, Body.jsonList l⟩ ∧
      List.Perm l samplePatients :=
  ⟨storeValues initialStore, rfl,
    (show storeValues initialStore = samplePatients from rfl) ▸ List.Perm.refl _⟩

/-- C7: the store is mutated only by create: get-by-name (hit or miss), list
and health leave the store unchanged. -/
theorem store_mutated_only_by_create (s : Store) :
    (∀ n, (handleRequest s (Request.getReq n)).2 = s) ∧
    (handleRequest s Request.listReq).2 = s ∧
    (∀ t, (handleRequest s (Request.healthReq t)).2 = s) :=
  ⟨fun _ => rfl, rfl, fun _ => rfl⟩

/-- C10: the required-field check is exact string emptiness with no trimming
and only covers name, dateOfBirth and email: a record whose name, dateOfBirth
and email are whitespace-only and whose gender and illness are empty is
accepted with 201 and stored. -/
theorem create_whitespace_accepted :
    (createPatient initialStore (some ⟨" ", " ", "", "", " "⟩)).1.status = 201 ∧
    storeLookup (createPatient initialStore (some ⟨" ", " ", "", "", " "⟩)).2 " " =
      some ⟨" ", " ", "", "", " "⟩ := by
  decide

theorem digit_facts (y : Nat) (h : y ≤ 9) :
    (Char.ofNat (48 + y)).isDigit = true ∧ (Char.ofNat (48 + y)).toNat - 48 = y := by
  interval_cases y <;> exact ⟨by decide, by decide⟩

theorem digitChar_isDigit (x : Nat) : (digitChar x).isDigit = true :=
  (digit_facts (x % 10) (by omega)).1

theorem digitVal_digitChar (x : Nat) : digitVal (digitChar x) = x % 10 :=
  (digit_facts (x % 10) (by omega)).2

theorem offsetOk_offsetChars (off : Int) (h : off.natAbs ≤ 1439) :
    offsetOk (offsetChars off) = true := by
  by_cases h0 : off = 0
  · simp [offsetChars, h0, offsetOk]
  · have h23 : off.natAbs / 60 ≤ 23 := by omega
    by_cases hneg : off < 0 <;>
      · simp [offsetChars, h0, hneg, offsetOk, digitChar_isDigit, digitVal_digitChar]
        omega

/-- C8: for every request, health answers 200 with a JSON object whose
status field is "healthy" and whose time field is the RFC3339 rendering of
the current server time, a syntactically valid RFC3339 timestamp, and
independent of the store (the handler takes no store argument). -/
theorem healthCheck_spec (t : GoTime)
    (hy : t.year ≤ 9999) (hm1 : 1 ≤ t.month) (hm2 : t.month ≤ 12)
    (hd1 : 1 ≤ t.day) (hd2 : t.day ≤ 31) (hh : t.hour ≤ 23)
    (hmin : t.minute ≤ 59) (hsec : t.second ≤ 59)
    (hoff : t.offsetMinutes.natAbs ≤ 1439) :
    healthCheck t =
      ⟨200, Body.jsonObj [("status", "healthy"), ("time", formatRFC3339 t)]⟩ ∧
    rfc3339Valid (formatRFC3339 t) = true := by
  refine ⟨rfl, ?_⟩
  show rfc3339ValidChars
      ([digitChar (t.year / 1000), digitChar (t.year / 100),
        digitChar (t.year / 10), digitChar t.year, '-',
        digitChar (t.month / 10), digitChar t.month, '-',
        digitChar (t.day / 10), digitChar t.day, 'T',
        digitChar (t.hour / 10), digitChar t.hour, ':',
        digitChar (t.minute / 10), digitChar t.minute, ':',
        digitChar (t.second / 10), digitChar t.second] ++ offsetChars t.offsetMinutes) = true
  simp [rfc3339ValidChars, digitChar_isDigit, digitVal_digitChar,
    offsetOk_offsetChars t.offsetMinutes hoff]
  omega

/-- C8 witness at a concrete instant (2026-10-11T12:30:45Z). -/
theorem healthCheck_spec_witness :
    healthCheck ⟨2026, 10, 11, 12, 30, 45, 0⟩ =
      ⟨200, Body.jsonObj [("status", "healthy"),
        ("time", formatRFC3339 ⟨2026, 10, 11, 12, 30, 45, 0⟩)]⟩ ∧
    rfc3339Valid (formatRFC3339 ⟨2026, 10, 11, 12, 30, 45, 0⟩) = true :=
  healthCheck_spec ⟨2026, 10, 11, 12, 30, 45, 0⟩ (by decide) (by decide) (by decide)
    (by decide) (by decide) (by decide) (by decide) (by decide) (by decide)
